import Mathlib

/-!
Verification of the backup orchestration engine in `main.py`
(`DHInstantOdooDatabaseBackup`): retention policy, backup downloader with
retry/backoff, source failover, retention sweeper and the run orchestrator.

The Python program's effects are embedded shallowly:
* the filesystem is a value of type `FS` (a set of directories plus an
  association list of files keyed by (directory, filename));
* the network is an oracle `Nat → AttemptSpec` describing what each HTTP
  download attempt would do (fail before writing, write a partial file and
  fail, or stream a complete file of a given size);
* `sleep` calls are logged as a list of durations;
* a raised Python exception is an `Except.error` carrying the message;
* `datetime.now()` readings are oracle parameters (`now : Int` in epoch
  seconds for the sweeper, a timestamp-string oracle for filenames).
-/

/-- Message of a raised Python exception (`ValueError`, `RuntimeError`, ...). -/
structure PyExc where
  msg : String
deriving DecidableEq, Repr

/-- A path, split as (directory, filename): artifacts live directly inside a
target's storage directory, which is all the program ever touches. -/
abbrev FPath := String × String

/-- Metadata of one directory entry: size in bytes, last-modified time in
epoch seconds, whether it is a regular file (`Path.is_file`), and whether an
attempt to `unlink` it raises `OSError` (environment nondeterminism, fixed
per entry). -/
structure FileInfo where
  size : Nat
  mtime : Int
  isFile : Bool
  unlinkFails : Bool
deriving DecidableEq, Repr

/-- The filesystem state: existing directories and files. -/
structure FS where
  dirs : List String
  files : List (FPath × FileInfo)
deriving DecidableEq, Repr

def FS.findFile (fs : FS) (p : FPath) : Option FileInfo :=
  (fs.files.find? (fun e => e.1 == p)).map (fun e => e.2)

def FS.setFile (fs : FS) (p : FPath) (f : FileInfo) : FS :=
  { fs with files := (p, f) :: fs.files.filter (fun e => e.1 != p) }

def FS.removeFile (fs : FS) (p : FPath) : FS :=
  { fs with files := fs.files.filter (fun e => e.1 != p) }

/-- Models `Path.mkdir(parents=True, exist_ok=True)` on the abstract
directory name. -/
def FS.mkdir (fs : FS) (d : String) : FS :=
  if d ∈ fs.dirs then fs else { fs with dirs := d :: fs.dirs }

/-- Models `out_path.exists()` followed by `try: out_path.unlink()
except OSError: pass` (main.py lines 136-140). -/
def FS.unlinkIfExists (fs : FS) (p : FPath) : FS :=
  match fs.findFile p with
  | none => fs
  | some f => if f.unlinkFails then fs else fs.removeFile p

/-- Replace every non-overlapping occurrence of `pat` in `s`, left to right
(Python `str.replace`); `fuel` is structural and chosen large enough. -/
def replaceAux : Nat → List Char → List Char → List Char → List Char
  | 0, s, _, _ => s
  | fuel + 1, s, pat, rep =>
    match s with
    | [] => []
    | c :: rest =>
      if pat.isPrefixOf s then rep ++ replaceAux fuel (s.drop pat.length) pat rep
      else c :: replaceAux fuel rest pat rep

def pyReplace (s pat rep : String) : String :=
  String.mk (replaceAux (s.toList.length + 1) s.toList pat.toList rep.toList)

/-- Shell-style glob matching over the wildcards `*` and `?` (the patterns
the sweeper builds contain a single `*`); `fuel` is structural and chosen
large enough in `globMatch`. -/
def globMatchAux : Nat → List Char → List Char → Bool
  | 0, _, _ => false
  | fuel + 1, pat, s =>
    match pat with
    | [] => s.isEmpty
    | p :: ps =>
      if p = '*' then
        globMatchAux fuel ps s ||
          (match s with
           | [] => false
           | _ :: srest => globMatchAux fuel (p :: ps) srest)
      else
        match s with
        | [] => false
        | c :: srest => (p = '?' || p = c) && globMatchAux fuel ps srest

def globMatch (pat s : String) : Bool :=
  globMatchAux (pat.toList.length + s.toList.length + 1) pat.toList s.toList

/-- ASCII whitespace, as stripped by Python `str.strip()` on the unit
strings that occur here. -/
def isSpaceChar (c : Char) : Bool :=
  c == ' ' || c == '\t' || c == '\n' || c == '\r'

/-- Python `str.strip()`: drop leading and trailing whitespace. -/
def pyStrip (s : String) : String :=
  String.mk (((s.toList.dropWhile isSpaceChar).reverse.dropWhile isSpaceChar).reverse)

/-- ASCII lowercasing of one character (the unit strings are ASCII). -/
def lowerChar (c : Char) : Char :=
  if 'A' ≤ c && c ≤ 'Z' then Char.ofNat (c.toNat + 32) else c

/-- Python `str.lower()` on ASCII strings. -/
def pyLower (s : String) : String :=
  String.mk (s.toList.map lowerChar)

/-- The `UNIT_SECONDS` table of main.py lines 11-20. -/
def UNIT_SECONDS (s : String) : Option Nat :=
  if s = "second" then some 1
  else if s = "seconds" then some 1
  else if s = "minute" then some 60
  else if s = "minutes" then some 60
  else if s = "hour" then some 3600
  else if s = "hours" then some 3600
  else if s = "day" then some 86400
  else if s = "days" then some 86400
  else none

/-- `RetentionConfig` dataclass (main.py lines 23-26). -/
structure RetentionConfig where
  value : Int
  unit : String
deriving DecidableEq, Repr

/-- `RetentionConfig.to_timedelta` (main.py lines 28-34); the returned
`timedelta` is its total number of seconds, a raised `ValueError` is an
`Except.error`. -/
def RetentionConfig.to_timedelta (rc : RetentionConfig) : Except PyExc Int :=
  match UNIT_SECONDS (pyLower (pyStrip rc.unit)) with
  | none => Except.error ⟨"Invalid retention unit. Use seconds, minutes, hours, or days."⟩
  | some k =>
    if rc.value ≤ 0 then Except.error ⟨"Retention value must be a positive integer."⟩
    else Except.ok (rc.value * (k : Int))

/-- `SourceConfig` dataclass (main.py lines 37-40). -/
structure SourceConfig where
  url : String
  db_password : String
deriving DecidableEq, Repr

/-- `DbBackupConfig` dataclass (main.py lines 52-58); `filenamePrefix`
models its `prefix` field. -/
structure DbBackupConfig where
  db_name : String
  backup_location : String
  filenamePrefix : String
  sources : List SourceConfig
  retention : Option RetentionConfig
deriving DecidableEq, Repr

/-- The cutoff instant of main.py line 149:
`cutoff = datetime.now() - system.retention.to_timedelta()`. -/
def toCutoffInstant (rc : RetentionConfig) (now : Int) : Except PyExc Int :=
  match rc.to_timedelta with
  | Except.error e => Except.error e
  | Except.ok td => Except.ok (now - td)

/-- What one HTTP download attempt (main.py lines 121-132) does, as decided
by the network/server environment:
* `httpError msg` — `requests.post` or `raise_for_status` raises before the
  output file is opened (network error or non-2xx status);
* `interrupted msg f` — streaming to `out_path` starts but an exception with
  message `msg` interrupts it, leaving a partial file with metadata `f`;
* `wrote f` — the body streams completely, leaving a file with metadata `f`
  after an HTTP-successful response (the size check then judges it). -/
inductive AttemptSpec where
  | httpError (msg : String)
  | interrupted (msg : String) (f : FileInfo)
  | wrote (f : FileInfo)
deriving DecidableEq, Repr

/-- The message of the exception the `try` body of one attempt (main.py
lines 121-132) raises, `none` when the attempt succeeds: an `httpError` or
`interrupted` exception is re-raised as caught, and a completely written
file smaller than 1024 bytes raises the `RuntimeError` of line 130. This is
independent of the filesystem. -/
def attemptErrMsg (a : AttemptSpec) : Option String :=
  match a with
  | AttemptSpec.httpError msg => some msg
  | AttemptSpec.interrupted msg _ => some msg
  | AttemptSpec.wrote f =>
    if f.size < 1024 then some ("Backup file too small: " ++ toString f.size ++ " bytes")
    else none

/-- The filesystem effect of the `try` body of one attempt: nothing is
written before the POST succeeds; otherwise `open(out_path, "wb")` plus the
streamed chunks leave the attempt's file at `out_path` (whether or not the
size check passes afterwards). -/
def attemptEffect (out_path : FPath) (a : AttemptSpec) (fs : FS) : FS :=
  match a with
  | AttemptSpec.httpError _ => fs
  | AttemptSpec.interrupted _ f => fs.setFile out_path f
  | AttemptSpec.wrote f => fs.setFile out_path f

/-- The `try` body of one attempt (main.py lines 121-132): the POST, the
streamed write and the 1024-byte size check. Returns the message of the
caught exception if the attempt failed (`none` on success) together with the
filesystem after the attempt's writes. -/
def runAttempt (out_path : FPath) (a : AttemptSpec) (fs : FS) : Option String × FS :=
  (attemptErrMsg a, attemptEffect out_path a fs)

/-- Rendering of `last_exc` inside the final f-string (Python prints `None`
for an absent exception). -/
def excStr (lastExc : Option String) : String :=
  match lastExc with
  | none => "None"
  | some m => m

/-- The aggregated `RuntimeError` message of main.py line 143. -/
def aggFailureMsg (url : String) (lastExc : Option String) : String :=
  "Source failed after retries (" ++ url ++ "): " ++ excStr lastExc

/-- Result of `_download_backup`: the function's outcome (`Except.error`
models the raised `RuntimeError`), the filesystem afterwards, the logged
`sleep` durations in order, and how many attempts were executed. -/
structure DLOut where
  res : Except PyExc Unit
  fs : FS
  sleeps : List Nat
  tried : Nat
deriving Repr

/-- The retry loop `for attempt in range(1, 4)` of main.py lines 119-143:
`attempt` is the current attempt number, `remaining` how many loop
iterations are left (3 at entry), `lastExc` mirrors `last_exc`. On a failed
attempt the partial file is unlinked best-effort and `sleep(2 ** attempt)`
is logged; when the iterations are exhausted the aggregated `RuntimeError`
is raised. -/
def downloadGo (url : String) (out_path : FPath) (oracle : Nat → AttemptSpec) :
    Nat → Nat → Option String → FS → List Nat → DLOut
  | attempt, 0, lastExc, fs, sleeps =>
    ⟨Except.error ⟨aggFailureMsg url lastExc⟩, fs, sleeps, attempt - 1⟩
  | attempt, remaining + 1, lastExc, fs, sleeps =>
    match runAttempt out_path (oracle attempt) fs with
    | (none, fs1) => ⟨Except.ok (), fs1, sleeps, attempt⟩
    | (some m, fs1) =>
      downloadGo url out_path oracle (attempt + 1) remaining (some m)
        (fs1.unlinkIfExists out_path) (sleeps ++ [2 ^ attempt])

/-- `DHInstantOdooDatabaseBackup._download_backup` (main.py lines 115-143).
`db_name` and `source.db_password` only shape the request payload, whose
effect the attempt oracle already accounts for; `source.url` names the
endpoint and appears in the aggregated failure. -/
def download_backup (db_name : String) (source : SourceConfig) (out_path : FPath)
    (oracle : Nat → AttemptSpec) (fs : FS) : DLOut :=
  downloadGo source.url out_path oracle 1 3 none fs []

/-- The artifact filename scheme of main.py line 112:
`{prefix}_backup_{db_name}_{safe_source}_{ts}.zip`. -/
def artifactFilename (pre db safe ts : String) : String :=
  pre ++ "_backup_" ++ db ++ "_" ++ safe ++ "_" ++ ts ++ ".zip"

/-- The `safe_source` sanitisation of main.py lines 107-111. -/
def sanitizeUrl (url : String) : String :=
  pyReplace (pyReplace (pyReplace url "https://" "") "http://" "") "/" "_"

/-- `DHInstantOdooDatabaseBackup._build_output_path` (main.py lines
102-113): creates the storage directory (with parents, exist_ok) and
returns the per-source output path; `ts` is the `datetime.now()` reading.
`expanduser`/`resolve` are the identity on the abstract directory names. -/
def build_output_path (system : DbBackupConfig) (ts : String) (source_url : String)
    (fs : FS) : FPath × FS :=
  let out_dir := system.backup_location
  let fs1 := fs.mkdir out_dir
  let safe_source := sanitizeUrl source_url
  ((out_dir, artifactFilename system.filenamePrefix system.db_name safe_source ts), fs1)

/-- Result of `backup_db_with_failover`: the returned artifact path
(`none` = all sources failed), the filesystem, and the URLs attempted, in
order. -/
structure FailoverOut where
  result : Option FPath
  fs : FS
  attempted : List String
deriving DecidableEq, Repr

/-- The `for idx, source in enumerate(system.sources, start=1)` loop of
main.py lines 179-188: build the output path, try the download, return the
path on success, otherwise catch the exception and continue with the next
source. `tsOf idx` is the `datetime.now()` reading at iteration `idx`;
`oracle s` is the attempt oracle of source `s`. -/
def failoverGo (system : DbBackupConfig) (oracle : SourceConfig → Nat → AttemptSpec)
    (tsOf : Nat → String) : Nat → List SourceConfig → FS → FailoverOut
  | _, [], fs => ⟨none, fs, []⟩
  | idx, s :: rest, fs =>
    match build_output_path system (tsOf idx) s.url fs with
    | (out_path, fs1) =>
      let d := download_backup system.db_name s out_path (oracle s) fs1
      match d.res with
      | Except.ok _ => ⟨some out_path, d.fs, [s.url]⟩
      | Except.error _ =>
        let r := failoverGo system oracle tsOf (idx + 1) rest d.fs
        ⟨r.result, r.fs, s.url :: r.attempted⟩

/-- `DHInstantOdooDatabaseBackup.backup_db_with_failover` (main.py lines
178-188). -/
def backup_db_with_failover (system : DbBackupConfig)
    (oracle : SourceConfig → Nat → AttemptSpec) (tsOf : Nat → String) (fs : FS) :
    FailoverOut :=
  failoverGo system oracle tsOf 1 system.sources fs

/-- The glob pattern of main.py line 158:
`{prefix}_backup_{db_name}_*.zip`. -/
def sweepPattern (system : DbBackupConfig) : String :=
  system.filenamePrefix ++ "_backup_" ++ system.db_name ++ "_*.zip"

/-- Whether a directory entry is yielded by `out_dir.glob(pattern)`
(main.py line 159): it lives directly in `out_dir` and its name matches. -/
def globSelects (out_dir pattern : String) (e : FPath × FileInfo) : Bool :=
  e.1.1 == out_dir && globMatch pattern e.1.2

/-- Whether the sweep loop body deletes an entry: a regular file, strictly
older than the cutoff, whose `unlink` does not raise. -/
def sweepDeletes (cutoff : Int) (e : FPath × FileInfo) : Bool :=
  e.2.isFile && decide (e.2.mtime < cutoff) && !e.2.unlinkFails

/-- Whether the sweep loop body counts an entry as kept: a regular file not
strictly older than the cutoff. -/
def sweepKeeps (cutoff : Int) (e : FPath × FileInfo) : Bool :=
  e.2.isFile && decide (cutoff ≤ e.2.mtime)

/-- The paths the sweep loop body would delete out of a globbed snapshot. -/
def delPaths (cutoff : Int) (l : List (FPath × FileInfo)) : List FPath :=
  (l.filter (sweepDeletes cutoff)).map Prod.fst

/-- The `for file_path in out_dir.glob(pattern)` loop of main.py lines
159-171 over the globbed snapshot: skip non-regular files, delete strictly
older ones (a failing `unlink` only logs a warning), count the rest as
kept. -/
def sweepGo (cutoff : Int) : List (FPath × FileInfo) → FS → Nat → Nat → FS × Nat × Nat
  | [], fs, deleted, kept => (fs, deleted, kept)
  | e :: rest, fs, deleted, kept =>
    if e.2.isFile = false then sweepGo cutoff rest fs deleted kept
    else if e.2.mtime < cutoff then
      if e.2.unlinkFails then sweepGo cutoff rest fs deleted kept
      else sweepGo cutoff rest (fs.removeFile e.1) (deleted + 1) kept
    else sweepGo cutoff rest fs deleted (kept + 1)

/-- `DHInstantOdooDatabaseBackup.cleanup_old_backups` (main.py lines
145-176): no-op without a retention config; computes the cutoff (an invalid
retention config raises `ValueError` out of the method); no-op if the
storage directory does not exist; otherwise sweeps the matching files and
returns the `(deleted, kept)` counters it prints. -/
def cleanup_old_backups (system : DbBackupConfig) (now : Int) (fs : FS) :
    Except PyExc (FS × Nat × Nat) :=
  match system.retention with
  | none => Except.ok (fs, 0, 0)
  | some rc =>
    match toCutoffInstant rc now with
    | Except.error e => Except.error e
    | Except.ok cutoff =>
      if system.backup_location ∈ fs.dirs then
        let matching := fs.files.filter (globSelects system.backup_location (sweepPattern system))
        Except.ok (sweepGo cutoff matching fs 0 0)
      else Except.ok (fs, 0, 0)

/-- Result of `execute`: the per-target `(db_name, failover result)`
outcomes of the targets that were processed, the filesystem, and the
exception that escaped `execute`, if any. -/
structure ExecOut where
  outcomes : List (String × Option FPath)
  fs : FS
  exc : Option PyExc
deriving DecidableEq, Repr

/-- `DHInstantOdooDatabaseBackup.execute` (main.py lines 190-203): for each
system, run `cleanup_old_backups` (not guarded by any `try`) and then
`backup_db_with_failover` (whose internal failures are already caught).
An exception raised by the cleanup propagates and ends the loop; the
systems after it are not processed. `oracle`/`tsOf` are keyed by the
system as well as the source/iteration. -/
def execute (oracle : DbBackupConfig → SourceConfig → Nat → AttemptSpec)
    (tsOf : DbBackupConfig → Nat → String) (now : Int) :
    List DbBackupConfig → FS → ExecOut
  | [], fs => ⟨[], fs, none⟩
  | system :: rest, fs =>
    match cleanup_old_backups system now fs with
    | Except.error e => ⟨[], fs, some e⟩
    | Except.ok (fs1, _, _) =>
      let r := backup_db_with_failover system (oracle system) (tsOf system) fs1
      let tail := execute oracle tsOf now rest r.fs
      ⟨(system.db_name, r.result) :: tail.outcomes, tail.fs, tail.exc⟩

/-- Whether `_download_backup` would return normally for this attempt
oracle: some of its three attempts raises no exception. -/
def downloadSucceeds (o : Nat → AttemptSpec) : Bool :=
  (attemptErrMsg (o 1)).isNone || (attemptErrMsg (o 2)).isNone || (attemptErrMsg (o 3)).isNone

/-- Whether the environment lets `unlink` succeed on whatever file this
attempt may leave behind. -/
def attemptClean (a : AttemptSpec) : Bool :=
  match a with
  | AttemptSpec.httpError _ => true
  | AttemptSpec.interrupted _ f => !f.unlinkFails
  | AttemptSpec.wrote f => !f.unlinkFails

/-- Whether the file currently at `p` (if any) can be unlinked. -/
def fsCleanAt (fs : FS) (p : FPath) : Bool :=
  match fs.findFile p with
  | none => true
  | some f => !f.unlinkFails

lemma download_ok_iff (db : String) (src : SourceConfig) (p : FPath)
    (o : Nat → AttemptSpec) (fs : FS) :
    (download_backup db src p o fs).res = Except.ok () ↔ downloadSucceeds o = true := by
  rcases h1 : attemptErrMsg (o 1) with _ | m1 <;>
    rcases h2 : attemptErrMsg (o 2) with _ | m2 <;>
      rcases h3 : attemptErrMsg (o 3) with _ | m3 <;>
        simp [download_backup, downloadGo, runAttempt, h1, h2, h3, downloadSucceeds]

lemma download_err_of_not_succeeds (db : String) (src : SourceConfig) (p : FPath)
    (o : Nat → AttemptSpec) (fs : FS) (h : downloadSucceeds o = false) :
    ∃ e, (download_backup db src p o fs).res = Except.error e := by
  rcases hr : (download_backup db src p o fs).res with e | u
  · exact ⟨e, rfl⟩
  · cases u
    rw [download_ok_iff db src p o fs] at hr
    rw [hr] at h
    cases h

lemma download_allfail (db : String) (src : SourceConfig) (p : FPath)
    (o : Nat → AttemptSpec) (fs : FS)
    (h : ∀ n, 1 ≤ n → n ≤ 3 → (attemptErrMsg (o n)).isSome) :
    (download_backup db src p o fs).res =
        Except.error ⟨aggFailureMsg src.url (attemptErrMsg (o 3))⟩ ∧
      (download_backup db src p o fs).sleeps = [2, 4, 8] ∧
      (download_backup db src p o fs).tried = 3 := by
  have h1 := h 1 (by omega) (by omega)
  have h2 := h 2 (by omega) (by omega)
  have h3 := h 3 (by omega) (by omega)
  rcases q1 : attemptErrMsg (o 1) with _ | m1 <;> rw [q1] at h1 <;> simp at h1
  rcases q2 : attemptErrMsg (o 2) with _ | m2 <;> rw [q2] at h2 <;> simp at h2
  rcases q3 : attemptErrMsg (o 3) with _ | m3 <;> rw [q3] at h3 <;> simp at h3
  simp [download_backup, downloadGo, runAttempt, q1, q2, q3, excStr]

lemma download_tried_le (db : String) (src : SourceConfig) (p : FPath)
    (o : Nat → AttemptSpec) (fs : FS) :
    (download_backup db src p o fs).tried ≤ 3 := by
  rcases h1 : attemptErrMsg (o 1) with _ | m1 <;>
    rcases h2 : attemptErrMsg (o 2) with _ | m2 <;>
      rcases h3 : attemptErrMsg (o 3) with _ | m3 <;>
        simp [download_backup, downloadGo, runAttempt, h1, h2, h3]

lemma download_one_retry (db : String) (src : SourceConfig) (p : FPath)
    (o : Nat → AttemptSpec) (fs : FS)
    (h1 : (attemptErrMsg (o 1)).isSome) (h2 : attemptErrMsg (o 2) = none) :
    (download_backup db src p o fs).res = Except.ok () ∧
      (download_backup db src p o fs).sleeps = [2] ∧
      (download_backup db src p o fs).tried = 2 := by
  rcases q1 : attemptErrMsg (o 1) with _ | m1 <;> rw [q1] at h1 <;> simp at h1
  simp [download_backup, downloadGo, runAttempt, q1, h2]

lemma findFile_setFile_self (fs : FS) (p : FPath) (f : FileInfo) :
    (fs.setFile p f).findFile p = some f := by
  simp [FS.setFile, FS.findFile, List.find?]

lemma findFile_removeFile_self (fs : FS) (p : FPath) :
    (fs.removeFile p).findFile p = none := by
  simp [FS.removeFile, FS.findFile]

lemma unlink_clean (fs : FS) (p : FPath) (h : fsCleanAt fs p = true) :
    (fs.unlinkIfExists p).findFile p = none := by
  unfold fsCleanAt at h
  unfold FS.unlinkIfExists
  rcases hf : fs.findFile p with _ | f
  · exact hf
  · rw [hf] at h
    simp at h
    simp [h, findFile_removeFile_self]

lemma cleanAt_of_findFile_none (fs : FS) (p : FPath) (h : fs.findFile p = none) :
    fsCleanAt fs p = true := by
  unfold fsCleanAt
  rw [h]

lemma cleanAt_effect (p : FPath) (a : AttemptSpec) (fs : FS)
    (ha : attemptClean a = true) (hfs : fsCleanAt fs p = true) :
    fsCleanAt (attemptEffect p a fs) p = true := by
  cases a with
  | httpError m => exact hfs
  | interrupted m f =>
    unfold attemptClean at ha
    unfold fsCleanAt attemptEffect
    rw [findFile_setFile_self]
    exact ha
  | wrote f =>
    unfold attemptClean at ha
    unfold fsCleanAt attemptEffect
    rw [findFile_setFile_self]
    exact ha

lemma downloadGo_clean (url : String) (p : FPath) (o : Nat → AttemptSpec)
    (hcl : ∀ n, attemptClean (o n) = true) :
    ∀ (r a : Nat) (l : Option String) (fs : FS) (sl : List Nat) (e : PyExc),
      fsCleanAt fs p = true →
      (downloadGo url p o a (r + 1) l fs sl).res = Except.error e →
      (downloadGo url p o a (r + 1) l fs sl).fs.findFile p = none := by
  intro r
  induction r with
  | zero =>
    intro a l fs sl e hfs hres
    rcases hm : attemptErrMsg (o a) with _ | m
    · simp [downloadGo, runAttempt, hm] at hres
    · simp [downloadGo, runAttempt, hm] at hres ⊢
      exact unlink_clean _ _ (cleanAt_effect p (o a) fs (hcl a) hfs)
  | succ r ih =>
    intro a l fs sl e hfs hres
    rcases hm : attemptErrMsg (o a) with _ | m
    · simp [downloadGo, runAttempt, hm] at hres
    · simp only [downloadGo, runAttempt, hm] at hres ⊢
      refine ih (a + 1) (some m) _ _ e ?_ hres
      exact cleanAt_of_findFile_none _ _
        (unlink_clean _ _ (cleanAt_effect p (o a) fs (hcl a) hfs))

lemma effect_dirs (p : FPath) (a : AttemptSpec) (fs : FS) :
    (attemptEffect p a fs).dirs = fs.dirs := by
  cases a <;> rfl

lemma unlink_dirs (fs : FS) (p : FPath) : (fs.unlinkIfExists p).dirs = fs.dirs := by
  unfold FS.unlinkIfExists
  rcases fs.findFile p with _ | f
  · rfl
  · dsimp only
    split <;> rfl

lemma downloadGo_dirs (url : String) (p : FPath) (o : Nat → AttemptSpec) :
    ∀ (r a : Nat) (l : Option String) (fs : FS) (sl : List Nat),
      (downloadGo url p o a r l fs sl).fs.dirs = fs.dirs := by
  intro r
  induction r with
  | zero => intro a l fs sl; rfl
  | succ r ih =>
    intro a l fs sl
    rcases hm : attemptErrMsg (o a) with _ | m <;>
      simp [downloadGo, runAttempt, hm, ih, unlink_dirs, effect_dirs]

lemma download_fs_dirs (db : String) (src : SourceConfig) (p : FPath)
    (o : Nat → AttemptSpec) (fs : FS) :
    (download_backup db src p o fs).fs.dirs = fs.dirs := by
  unfold download_backup
  rw [downloadGo_dirs]

lemma mkdir_mem_self (fs : FS) (d : String) : d ∈ (fs.mkdir d).dirs := by
  unfold FS.mkdir
  split
  · assumption
  · exact List.mem_cons_self d fs.dirs

lemma mkdir_mem_mono (fs : FS) (d d' : String) (h : d ∈ fs.dirs) :
    d ∈ (fs.mkdir d').dirs := by
  unfold FS.mkdir
  split
  · exact h
  · exact List.mem_cons_of_mem d' h

lemma failoverGo_dirs_mono (system : DbBackupConfig)
    (o : SourceConfig → Nat → AttemptSpec) (ts : Nat → String) (d : String) :
    ∀ (l : List SourceConfig) (idx : Nat) (fs : FS), d ∈ fs.dirs →
      d ∈ (failoverGo system o ts idx l fs).fs.dirs := by
  intro l
  induction l with
  | nil => intro idx fs h; exact h
  | cons s rest ih =>
    intro idx fs h
    simp only [failoverGo, build_output_path]
    rcases hr : (download_backup system.db_name s
        (system.backup_location,
          artifactFilename system.filenamePrefix system.db_name (sanitizeUrl s.url) (ts idx))
        (o s) (fs.mkdir system.backup_location)).res with e | u
    · simp only [hr]
      apply ih
      rw [download_fs_dirs]
      exact mkdir_mem_mono fs d system.backup_location h
    · simp only [hr]
      rw [download_fs_dirs]
      exact mkdir_mem_mono fs d system.backup_location h

lemma failoverGo_all_fail (system : DbBackupConfig)
    (o : SourceConfig → Nat → AttemptSpec) (ts : Nat → String) :
    ∀ (l : List SourceConfig) (idx : Nat) (fs : FS),
      (∀ t ∈ l, downloadSucceeds (o t) = false) →
      (failoverGo system o ts idx l fs).result = none ∧
        (failoverGo system o ts idx l fs).attempted = l.map SourceConfig.url := by
  intro l
  induction l with
  | nil => intro idx fs _; exact ⟨rfl, rfl⟩
  | cons s rest ih =>
    intro idx fs h
    obtain ⟨e, he⟩ := download_err_of_not_succeeds system.db_name s
      (system.backup_location,
        artifactFilename system.filenamePrefix system.db_name (sanitizeUrl s.url) (ts idx))
      (o s) (fs.mkdir system.backup_location) (h s (List.mem_cons_self s rest))
    have hrest := ih (idx + 1) (download_backup system.db_name s
      (system.backup_location,
        artifactFilename system.filenamePrefix system.db_name (sanitizeUrl s.url) (ts idx))
      (o s) (fs.mkdir system.backup_location)).fs
      (fun t ht => h t (List.mem_cons_of_mem s ht))
    simp only [failoverGo, build_output_path, he, List.map_cons, List.append_eq]
    exact ⟨hrest.1, by rw [hrest.2]⟩

lemma failoverGo_first_success (system : DbBackupConfig)
    (o : SourceConfig → Nat → AttemptSpec) (ts : Nat → String)
    (s : SourceConfig) (post : List SourceConfig) (hs : downloadSucceeds (o s) = true) :
    ∀ (pre : List SourceConfig) (idx : Nat) (fs : FS),
      (∀ t ∈ pre, downloadSucceeds (o t) = false) →
      (failoverGo system o ts idx (pre ++ s :: post) fs).result =
          some (system.backup_location,
            artifactFilename system.filenamePrefix system.db_name (sanitizeUrl s.url)
              (ts (idx + pre.length))) ∧
        (failoverGo system o ts idx (pre ++ s :: post) fs).attempted =
          pre.map SourceConfig.url ++ [s.url] := by
  intro pre
  induction pre with
  | nil =>
    intro idx fs _
    have hok : (download_backup system.db_name s
        (system.backup_location,
          artifactFilename system.filenamePrefix system.db_name (sanitizeUrl s.url) (ts idx))
        (o s) (fs.mkdir system.backup_location)).res = Except.ok () :=
      (download_ok_iff _ _ _ _ _).mpr hs
    simp [failoverGo, build_output_path, hok]
  | cons t pre' ih =>
    intro idx fs h
    obtain ⟨e, he⟩ := download_err_of_not_succeeds system.db_name t
      (system.backup_location,
        artifactFilename system.filenamePrefix system.db_name (sanitizeUrl t.url) (ts idx))
      (o t) (fs.mkdir system.backup_location) (h t (List.mem_cons_self t pre'))
    have hrest := ih (idx + 1) (download_backup system.db_name t
      (system.backup_location,
        artifactFilename system.filenamePrefix system.db_name (sanitizeUrl t.url) (ts idx))
      (o t) (fs.mkdir system.backup_location)).fs
      (fun x hx => h x (List.mem_cons_of_mem t hx))
    have hidx : idx + 1 + pre'.length = idx + (t :: pre').length := by
      simp only [List.length_cons]
      omega
    rw [hidx] at hrest
    simp only [List.cons_append, failoverGo, build_output_path, he, List.map_cons,
      List.append_eq]
    exact ⟨hrest.1, by rw [hrest.2]⟩

lemma filter_remove_filter (fl : List (FPath × FileInfo)) (p : FPath) (ks : List FPath) :
    (fl.filter (fun x => x.1 != p)).filter (fun x => decide (x.1 ∉ ks)) =
      fl.filter (fun x => decide (x.1 ∉ p :: ks)) := by
  rw [List.filter_filter]
  apply List.filter_congr
  intro x _
  by_cases hx : x.1 = p <;> by_cases hk : x.1 ∈ ks <;>
    simp [hx, hk, List.mem_cons]

lemma sweepGo_spec (cutoff : Int) :
    ∀ (l : List (FPath × FileInfo)) (fs : FS) (d k : Nat),
      sweepGo cutoff l fs d k =
        (⟨fs.dirs, fs.files.filter (fun e => decide (e.1 ∉ delPaths cutoff l))⟩,
          d + (l.filter (sweepDeletes cutoff)).length,
          k + (l.filter (sweepKeeps cutoff)).length) := by
  intro l
  induction l with
  | nil =>
    intro fs d k
    simp [sweepGo, delPaths]
  | cons e rest ih =>
    intro fs d k
    by_cases hf : e.2.isFile = false
    · have hdel : sweepDeletes cutoff e = false := by
        simp [sweepDeletes, hf]
      have hkeep : sweepKeeps cutoff e = false := by
        simp [sweepKeeps, hf]
      have hdp : delPaths cutoff (e :: rest) = delPaths cutoff rest := by
        simp [delPaths, List.filter_cons, hdel]
      simp [sweepGo, hf, ih, hdp, List.filter_cons, hdel, hkeep]
    · have hf' : e.2.isFile = true := by
        revert hf; cases e.2.isFile <;> simp
      by_cases hm : e.2.mtime < cutoff
      · have hkeep : sweepKeeps cutoff e = false := by
          simp [sweepKeeps, hf']
          omega
        by_cases hu : e.2.unlinkFails = true
        · have hdel : sweepDeletes cutoff e = false := by
            simp [sweepDeletes, hu]
          have hdp : delPaths cutoff (e :: rest) = delPaths cutoff rest := by
            simp [delPaths, List.filter_cons, hdel]
          simp [sweepGo, hf, hf', hm, hu, ih, hdp, List.filter_cons, hdel, hkeep]
        · have hu' : e.2.unlinkFails = false := by
            revert hu; cases e.2.unlinkFails <;> simp
          have hdel : sweepDeletes cutoff e = true := by
            simp [sweepDeletes, hf', hu', hm]
          have hdp : delPaths cutoff (e :: rest) = e.1 :: delPaths cutoff rest := by
            simp [delPaths, List.filter_cons, hdel]
          simp [sweepGo, hf, hf', hm, hu', ih, hdp, List.filter_cons, hdel, hkeep,
            FS.removeFile, Prod.ext_iff]
          refine ⟨List.filter_congr fun x _ => ?_, by omega⟩
          rcases x with ⟨⟨xa, xb⟩, xi⟩
          rcases e with ⟨⟨ea, eb⟩, ei⟩
          by_cases h1 : xa = ea <;> by_cases h2 : xb = eb <;>
            by_cases hk : ((xa, xb) : FPath) ∈ delPaths cutoff rest <;>
              simp [h1, h2, hk, Prod.ext_iff]
      · have hkeep : sweepKeeps cutoff e = true := by
          simp [sweepKeeps, hf']
          omega
        have hdel : sweepDeletes cutoff e = false := by
          simp [sweepDeletes]
          omega
        have hdp : delPaths cutoff (e :: rest) = delPaths cutoff rest := by
          simp [delPaths, List.filter_cons, hdel]
        simp [sweepGo, hf, hf', hm, ih, hdp, List.filter_cons, hdel, hkeep,
          Prod.ext_iff]
        omega

lemma cleanup_unfold (system : DbBackupConfig) (rc : RetentionConfig) (td now : Int)
    (fs : FS) (hrc : system.retention = some rc) (htd : rc.to_timedelta = Except.ok td)
    (hdir : system.backup_location ∈ fs.dirs) :
    cleanup_old_backups system now fs =
      Except.ok (sweepGo (now - td)
        (fs.files.filter (globSelects system.backup_location (sweepPattern system))) fs 0 0) := by
  simp [cleanup_old_backups, toCutoffInstant, hrc, htd, hdir]

lemma UNIT_SECONDS_pos (s : String) (k : Nat) (h : UNIT_SECONDS s = some k) : 1 ≤ k := by
  unfold UNIT_SECONDS at h
  repeat' split at h
  all_goals simp_all
  all_goals omega

lemma cleanup_ok_of_valid (system : DbBackupConfig) (now : Int) (fs : FS)
    (h : ∀ rc, system.retention = some rc → ∃ td, rc.to_timedelta = Except.ok td) :
    ∃ out, cleanup_old_backups system now fs = Except.ok out := by
  rcases hrc : system.retention with _ | rc
  · simp [cleanup_old_backups, hrc]
  · obtain ⟨td, htd⟩ := h rc hrc
    simp only [cleanup_old_backups, toCutoffInstant, hrc, htd]
    split
    · exact ⟨_, rfl⟩
    · exact ⟨_, rfl⟩

lemma execute_all_processed (oracle : DbBackupConfig → SourceConfig → Nat → AttemptSpec)
    (tsOf : DbBackupConfig → Nat → String) (now : Int) :
    ∀ (systems : List DbBackupConfig) (fs : FS),
      (∀ system ∈ systems, ∀ rc, system.retention = some rc →
        ∃ td, rc.to_timedelta = Except.ok td) →
      (execute oracle tsOf now systems fs).exc = none ∧
        (execute oracle tsOf now systems fs).outcomes.map Prod.fst =
          systems.map DbBackupConfig.db_name := by
  intro systems
  induction systems with
  | nil => intro fs _; exact ⟨rfl, rfl⟩
  | cons system rest ih =>
    intro fs h
    obtain ⟨out, hout⟩ := cleanup_ok_of_valid system now fs
      (h system (List.mem_cons_self system rest))
    rcases out with ⟨fs1, d, k⟩
    have hrest := ih (backup_db_with_failover system (oracle system) (tsOf system) fs1).fs
      (fun x hx => h x (List.mem_cons_of_mem system hx))
    simp [execute, hout, hrest.1, hrest.2]

/-- C1: `backup_db_with_failover` tries the sources of a target exactly in
list order; on the first source whose download succeeds it returns that
source's artifact path immediately, attempting no later source; if every
source fails it returns the all-sources-failed outcome (`none`) after
attempting exactly the whole list in order. -/
theorem C1_failover_order_first_success (system : DbBackupConfig)
    (o : SourceConfig → Nat → AttemptSpec) (ts : Nat → String) (fs : FS) :
    (∀ pre s post, system.sources = pre ++ s :: post →
      (∀ t ∈ pre, downloadSucceeds (o t) = false) →
      downloadSucceeds (o s) = true →
      (backup_db_with_failover system o ts fs).result =
          some (system.backup_location,
            artifactFilename system.filenamePrefix system.db_name (sanitizeUrl s.url)
              (ts (1 + pre.length))) ∧
        (backup_db_with_failover system o ts fs).attempted =
          pre.map SourceConfig.url ++ [s.url]) ∧
    ((∀ t ∈ system.sources, downloadSucceeds (o t) = false) →
      (backup_db_with_failover system o ts fs).result = none ∧
        (backup_db_with_failover system o ts fs).attempted =
          system.sources.map SourceConfig.url) := by
  constructor
  · intro pre s post hdecomp hpre hs
    unfold backup_db_with_failover
    rw [hdecomp]
    exact failoverGo_first_success system o ts s post hs pre 1 fs hpre
  · intro hall
    unfold backup_db_with_failover
    exact failoverGo_all_fail system o ts system.sources 1 fs hall

/-- C3: when `_download_backup` fails (raises after exhausting its
attempts), the destination path does not exist afterwards — provided the
environment lets each best-effort `unlink` succeed (`attemptClean` /
`fsCleanAt`): each failed attempt deletes the partial file it may have
written. -/
theorem C3_no_partial_on_failure (db : String) (src : SourceConfig) (p : FPath)
    (o : Nat → AttemptSpec) (fs : FS) (e : PyExc)
    (hcl : ∀ n, attemptClean (o n) = true)
    (hfs : fsCleanAt fs p = true)
    (herr : (download_backup db src p o fs).res = Except.error e) :
    (download_backup db src p o fs).fs.findFile p = none :=
  downloadGo_clean src.url p o hcl 2 1 none fs [] e hfs herr

/-- C4 counterexample: with every attempt failing, `_download_backup`
executes 3 attempts but logs three sleeps `[2, 4, 8]` — `sleep(2 ** 3)`
runs after the third and final failed attempt, when no further try follows,
so the backoff wait is not "only between tries" (that would allow at most
`tried - 1 = 2` sleeps). -/
theorem C4_counterexample :
    (download_backup "db" ⟨"u", "pw"⟩ ("/b", "f.zip")
        (fun _ => AttemptSpec.httpError "connection error") ⟨[], []⟩).tried = 3 ∧
      (download_backup "db" ⟨"u", "pw"⟩ ("/b", "f.zip")
        (fun _ => AttemptSpec.httpError "connection error") ⟨[], []⟩).sleeps = [2, 4, 8] ∧
      ¬ ((download_backup "db" ⟨"u", "pw"⟩ ("/b", "f.zip")
          (fun _ => AttemptSpec.httpError "connection error") ⟨[], []⟩).sleeps.length ≤
        (download_backup "db" ⟨"u", "pw"⟩ ("/b", "f.zip")
          (fun _ => AttemptSpec.httpError "connection error") ⟨[], []⟩).tried - 1) := by
  decide

/-- C4 (amended): `_download_backup` makes at most 3 attempts per source,
waits `2 ^ attempt` seconds after every failed attempt — including after the
third and final one, before the aggregated failure is raised (so `[2, 4, 8]`
when all attempts fail, `[2]` when attempt 1 fails and attempt 2 succeeds) —
and after exhausting the 3 attempts surfaces a single aggregated failure
carrying the last underlying error and the source url. -/
theorem C4_amended_retry_backoff (db : String) (src : SourceConfig) (p : FPath)
    (o : Nat → AttemptSpec) (fs : FS) :
    (download_backup db src p o fs).tried ≤ 3 ∧
    ((∀ n, 1 ≤ n → n ≤ 3 → (attemptErrMsg (o n)).isSome) →
      (download_backup db src p o fs).res =
          Except.error ⟨aggFailureMsg src.url (attemptErrMsg (o 3))⟩ ∧
        (download_backup db src p o fs).sleeps = [2, 4, 8] ∧
        (download_backup db src p o fs).tried = 3) ∧
    ((attemptErrMsg (o 1)).isSome → attemptErrMsg (o 2) = none →
      (download_backup db src p o fs).res = Except.ok () ∧
        (download_backup db src p o fs).sleeps = [2] ∧
        (download_backup db src p o fs).tried = 2) :=
  ⟨download_tried_le db src p o fs,
    fun h => download_allfail db src p o fs h,
    fun h1 h2 => download_one_retry db src p o fs h1 h2⟩

/-- C5 counterexample: on an expected failure mode (three network errors,
an exhausted source), `_download_backup` does not return a failure value to
its caller — it raises: the modelled call ends with the `RuntimeError` of
main.py line 143 propagating out of the function (`Except.error`), which
`backup_db_with_failover` must catch with `except Exception`. -/
theorem C5_counterexample :
    (download_backup "db" ⟨"u", "pw"⟩ ("/b", "f.zip")
        (fun _ => AttemptSpec.httpError "connection refused") ⟨[], []⟩).res =
      Except.error ⟨"Source failed after retries (u): connection refused"⟩ := rfl

/-- C5 (amended): the exception `_download_backup` raises on an expected
failure mode never escapes the failover coordinator: the coordinator
catches it, records the source as attempted, and continues with the
remaining sources, whose processing alone determines the outcome. -/
theorem C5_amended_coordinator_catches (system : DbBackupConfig)
    (o : SourceConfig → Nat → AttemptSpec) (ts : Nat → String) (idx : Nat)
    (s : SourceConfig) (rest : List SourceConfig) (fs : FS)
    (hfail : downloadSucceeds (o s) = false) :
    ∃ e fs',
      (download_backup system.db_name s
          (system.backup_location,
            artifactFilename system.filenamePrefix system.db_name (sanitizeUrl s.url) (ts idx))
          (o s) (fs.mkdir system.backup_location)).res = Except.error e ∧
        (failoverGo system o ts idx (s :: rest) fs).result =
          (failoverGo system o ts (idx + 1) rest fs').result ∧
        (failoverGo system o ts idx (s :: rest) fs).attempted =
          s.url :: (failoverGo system o ts (idx + 1) rest fs').attempted := by
  obtain ⟨e, he⟩ := download_err_of_not_succeeds system.db_name s
    (system.backup_location,
      artifactFilename system.filenamePrefix system.db_name (sanitizeUrl s.url) (ts idx))
    (o s) (fs.mkdir system.backup_location) hfail
  refine ⟨e, (download_backup system.db_name s
    (system.backup_location,
      artifactFilename system.filenamePrefix system.db_name (sanitizeUrl s.url) (ts idx))
    (o s) (fs.mkdir system.backup_location)).fs, he, ?_, ?_⟩ <;>
    simp only [failoverGo, build_output_path, he]

/-- C8: for a recognized unit and positive amounts, the cutoff instant of
the retention policy is strictly decreasing in the amount: a larger amount
yields an earlier (smaller) cutoff. -/
theorem C8_cutoff_monotone (u : String) (k : Nat) (v1 v2 now : Int)
    (hk : UNIT_SECONDS (pyLower (pyStrip u)) = some k)
    (h1 : 0 < v1) (h12 : v1 < v2) :
    ∃ c1 c2, toCutoffInstant ⟨v1, u⟩ now = Except.ok c1 ∧
      toCutoffInstant ⟨v2, u⟩ now = Except.ok c2 ∧ c2 < c1 := by
  have hkpos : (1 : Int) ≤ (k : Int) := by exact_mod_cast UNIT_SECONDS_pos _ _ hk
  refine ⟨now - v1 * k, now - v2 * k, ?_, ?_, ?_⟩
  · simp [toCutoffInstant, RetentionConfig.to_timedelta, hk, show ¬(v1 ≤ 0) by omega]
  · simp [toCutoffInstant, RetentionConfig.to_timedelta, hk, show ¬(v2 ≤ 0) by omega]
  · have hmul : v1 * (k : Int) < v2 * (k : Int) :=
      mul_lt_mul_of_pos_right h12 (by omega)
    exact sub_lt_sub_left hmul now

/-- C9: in a download attempt whose HTTP layer succeeded and streamed the
whole body, the written file passes validation and the attempt succeeds
exactly when it has at least 1024 bytes; a smaller file is treated as a
failed transfer — the file is deleted and the loop moves to the next
attempt (number 2) carrying the too-small error as the last exception. -/
theorem C9_size_validation (db : String) (src : SourceConfig) (p : FPath)
    (o : Nat → AttemptSpec) (fs : FS) (f : FileInfo)
    (h1 : o 1 = AttemptSpec.wrote f) :
    (1024 ≤ f.size →
      download_backup db src p o fs = ⟨Except.ok (), fs.setFile p f, [], 1⟩) ∧
    (f.size < 1024 → f.unlinkFails = false →
      download_backup db src p o fs =
        downloadGo src.url p o 2 2
          (some ("Backup file too small: " ++ toString f.size ++ " bytes"))
          ((fs.setFile p f).removeFile p) [2]) := by
  constructor
  · intro hsz
    simp [download_backup, downloadGo, runAttempt, attemptErrMsg, attemptEffect, h1,
      Nat.not_lt.mpr hsz]
  · intro hsz hu
    have hul : (fs.setFile p f).unlinkIfExists p = (fs.setFile p f).removeFile p := by
      unfold FS.unlinkIfExists
      rw [findFile_setFile_self]
      simp [hu]
    simp [download_backup, downloadGo, runAttempt, attemptErrMsg, attemptEffect, h1,
      hsz, hul]

/-- C10: the storage directory of the target is created (with parents)
while computing the output path of the first attempted source, before its
download starts; hence after a failover call over a non-empty source list
the storage directory exists, even when every source failed. -/
theorem C10_storage_dir_created (system : DbBackupConfig)
    (o : SourceConfig → Nat → AttemptSpec) (ts : Nat → String) (fs : FS)
    (h : system.sources ≠ []) :
    system.backup_location ∈ (backup_db_with_failover system o ts fs).fs.dirs := by
  rcases hs : system.sources with _ | ⟨s, rest⟩
  · exact absurd hs h
  · unfold backup_db_with_failover
    rw [hs]
    simp only [failoverGo, build_output_path]
    rcases hr : (download_backup system.db_name s
        (system.backup_location,
          artifactFilename system.filenamePrefix system.db_name (sanitizeUrl s.url) (ts 1))
        (o s) (fs.mkdir system.backup_location)).res with e | u
    · simp only [hr]
      apply failoverGo_dirs_mono
      rw [download_fs_dirs]
      exact mkdir_mem_self fs system.backup_location
    · simp only [hr]
      rw [download_fs_dirs]
      exact mkdir_mem_self fs system.backup_location

lemma mem_delPaths_globSelects (dir pat : String) (cutoff : Int)
    (files : List (FPath × FileInfo)) (p : FPath) (i : FileInfo)
    (hp : p ∈ delPaths cutoff (files.filter (globSelects dir pat))) :
    globSelects dir pat (p, i) = true := by
  obtain ⟨e', he', hfst⟩ := List.mem_map.mp hp
  have h1 := (List.mem_filter.mp (List.mem_filter.mp he').1).2
  have hkey : ((p, i) : FPath × FileInfo).1 = e'.1 := hfst.symm
  unfold globSelects at h1 ⊢
  rw [hkey]
  exact h1

/-- C2 counterexample: `execute` over two targets where the first has an
invalid retention unit: the `ValueError` raised by
`retention.to_timedelta()` inside `cleanup_old_backups` is not caught by
`execute`, so the run aborts — the outcome list is empty and in particular
the second target (`db2`) is neither swept nor attempted, contradicting the
claim that a sweep failure is fatal for that target only. -/
theorem C2_counterexample :
    (execute (fun _ _ _ => AttemptSpec.httpError "down") (fun _ _ => "t") 0
        [⟨"db1", "/b1", "odoo", [⟨"http://s1", "pw"⟩], some ⟨1, "fortnight"⟩⟩,
          ⟨"db2", "/b2", "odoo", [⟨"http://s2", "pw"⟩], none⟩] ⟨[], []⟩).outcomes = [] ∧
      (execute (fun _ _ _ => AttemptSpec.httpError "down") (fun _ _ => "t") 0
        [⟨"db1", "/b1", "odoo", [⟨"http://s1", "pw"⟩], some ⟨1, "fortnight"⟩⟩,
          ⟨"db2", "/b2", "odoo", [⟨"http://s2", "pw"⟩], none⟩] ⟨[], []⟩).exc =
        some ⟨"Invalid retention unit. Use seconds, minutes, hours, or days."⟩ := by
  decide

/-- C2 (amended): as long as no target has an invalid retention config,
one target's failure — including exhaustion of all its download sources —
never aborts `execute`: no exception escapes and every target in the list
is processed (swept and attempted), in order. An invalid retention config,
however, raises out of the sweep and aborts the remaining targets. -/
theorem C2_amended_no_abort (oracle : DbBackupConfig → SourceConfig → Nat → AttemptSpec)
    (tsOf : DbBackupConfig → Nat → String) (now : Int)
    (systems : List DbBackupConfig) (fs : FS)
    (hvalid : ∀ system ∈ systems, ∀ rc, system.retention = some rc →
      ∃ td, rc.to_timedelta = Except.ok td) :
    (execute oracle tsOf now systems fs).exc = none ∧
      (execute oracle tsOf now systems fs).outcomes.map Prod.fst =
        systems.map DbBackupConfig.db_name :=
  execute_all_processed oracle tsOf now systems fs hvalid

/-- C6 counterexample: sweeping the target `(prefix "odoo", db "a")`
deletes the expired file `odoo_backup_a_b_h_t.zip`, which by the artifact
naming scheme is the artifact `{odoo}_backup_{a_b}_{h}_{t}.zip` of the
different database name `a_b` sharing the directory: name-based glob
scoping does not protect a sibling system whose name extends this one, so
the sweeper can delete a file belonging to a different system. -/
theorem C6_counterexample :
    cleanup_old_backups ⟨"a", "/b", "odoo", [⟨"u", "pw"⟩], some ⟨7, "days"⟩⟩ 1728000
        ⟨["/b"], [(("/b", "odoo_backup_a_b_h_t.zip"), ⟨2048, 0, true, false⟩)]⟩ =
      Except.ok (⟨["/b"], []⟩, 1, 0) ∧
      "odoo_backup_a_b_h_t.zip" = artifactFilename "odoo" "a_b" "h" "t" ∧
      "a_b" ≠ "a" := by
  refine ⟨rfl, rfl, by decide⟩

/-- C6 (amended): a sweep never deletes a file whose name does not match
the glob pattern `{prefix}_backup_{databaseName}_*.zip` in the target's
storage directory, even if it is older than the cutoff — every entry
removed by `cleanup_old_backups` was selected by that pattern. (Matching is
purely name-based, so it does not additionally protect files of a different
system whose names happen to match, as the counterexample shows.) -/
theorem C6_amended_only_matching_deleted (system : DbBackupConfig) (now : Int)
    (fs fs' : FS) (d k : Nat)
    (hrun : cleanup_old_backups system now fs = Except.ok (fs', d, k)) :
    ∀ p i, (p, i) ∈ fs.files → (p, i) ∉ fs'.files →
      globSelects system.backup_location (sweepPattern system) (p, i) = true := by
  intro p i hin hout
  unfold cleanup_old_backups at hrun
  split at hrun
  · injection hrun with h
    have hfs : fs' = fs := (congrArg Prod.fst h).symm
    rw [hfs] at hout
    exact absurd hin hout
  · rename_i rc hrc
    rcases hcut : toCutoffInstant rc now with e | cutoff <;> rw [hcut] at hrun
    · simp at hrun
    · dsimp only at hrun
      split at hrun
      · rw [sweepGo_spec] at hrun
        injection hrun with h
        have hfs : fs' = ⟨fs.dirs, fs.files.filter (fun e => decide (e.1 ∉ delPaths cutoff
            (fs.files.filter (globSelects system.backup_location (sweepPattern system)))))⟩ :=
          (congrArg Prod.fst h).symm
        rw [hfs] at hout
        have hpred : ¬ (decide (((p, i) : FPath × FileInfo).1 ∉ delPaths cutoff
            (fs.files.filter (globSelects system.backup_location (sweepPattern system)))) = true) :=
          fun hp => hout (List.mem_filter.mpr ⟨hin, hp⟩)
        simp only [decide_eq_true_eq, not_not] at hpred
        exact mem_delPaths_globSelects system.backup_location (sweepPattern system)
          cutoff fs.files p i hpred
      · injection hrun with h
        have hfs : fs' = fs := (congrArg Prod.fst h).symm
        rw [hfs] at hout
        exact absurd hin hout

/-- C7: for a valid retention config and an existing storage directory
(and deletions the environment lets succeed, over distinct paths), a sweep
removes an entry of the directory snapshot if and only if it is selected by
the glob pattern, is a regular file, and its last-modified time is strictly
older than the cutoff `now - retention`; the kept counter counts exactly
the selected regular files not strictly older; and the sweep is idempotent:
re-running it immediately (same `now`, no new files) deletes nothing and
leaves the filesystem unchanged. -/
theorem C7_sweep_strict_cutoff_idempotent (system : DbBackupConfig)
    (rc : RetentionConfig) (td now : Int) (fs fs' : FS) (d k : Nat)
    (hrc : system.retention = some rc) (htd : rc.to_timedelta = Except.ok td)
    (hdir : system.backup_location ∈ fs.dirs)
    (hnd : (fs.files.map Prod.fst).Nodup)
    (hclean : ∀ e ∈ fs.files,
      globSelects system.backup_location (sweepPattern system) e = true →
      e.2.unlinkFails = false)
    (hrun : cleanup_old_backups system now fs = Except.ok (fs', d, k)) :
    (∀ p i, (p, i) ∈ fs.files →
      ((p, i) ∉ fs'.files ↔
        (globSelects system.backup_location (sweepPattern system) (p, i) = true ∧
          i.isFile = true ∧ i.mtime < now - td))) ∧
    k = ((fs.files.filter (globSelects system.backup_location (sweepPattern system))).filter
          (sweepKeeps (now - td))).length ∧
    ∃ k2, cleanup_old_backups system now fs' = Except.ok (fs', 0, k2) := by
  rw [cleanup_unfold system rc td now fs hrc htd hdir, sweepGo_spec] at hrun
  injection hrun with hrun
  have hfs' : fs' = ⟨fs.dirs,
      fs.files.filter (fun e => decide (e.1 ∉ delPaths (now - td)
        (fs.files.filter (globSelects system.backup_location (sweepPattern system)))))⟩ := by
    have := congrArg Prod.fst hrun
    simpa using this.symm
  have hk : k = ((fs.files.filter (globSelects system.backup_location
      (sweepPattern system))).filter (sweepKeeps (now - td))).length := by
    have := congrArg (fun x => x.2.2) hrun
    simpa using this.symm
  refine ⟨?_, hk, ?_⟩
  · intro p i hin
    constructor
    · intro hout
      have hpred : ¬ (decide (((p, i) : FPath × FileInfo).1 ∉ delPaths (now - td)
          (fs.files.filter (globSelects system.backup_location (sweepPattern system)))) = true) := by
        intro hp
        exact hout (by rw [hfs']; exact List.mem_filter.mpr ⟨hin, hp⟩)
      simp only [decide_eq_true_eq, not_not] at hpred
      obtain ⟨e', he'mem, he'fst⟩ := List.mem_map.mp hpred
      have he'del := List.mem_filter.mp he'mem
      have he'match := List.mem_filter.mp he'del.1
      have he'eq : e' = (p, i) :=
        List.inj_on_of_nodup_map hnd he'match.1 hin (by simpa using he'fst)
      rw [he'eq] at he'del he'match
      have hd := he'del.2
      simp only [sweepDeletes, Bool.and_eq_true, Bool.not_eq_true',
        decide_eq_true_eq] at hd
      exact ⟨he'match.2, hd.1.1, hd.1.2⟩
    · rintro ⟨hglob, hfile, hold⟩
      intro hmem'
      rw [hfs'] at hmem'
      have hpred := (List.mem_filter.mp hmem').2
      simp only [decide_eq_true_eq] at hpred
      apply hpred
      have hmatch : ((p, i) : FPath × FileInfo) ∈ fs.files.filter
          (globSelects system.backup_location (sweepPattern system)) :=
        List.mem_filter.mpr ⟨hin, hglob⟩
      have hdel : sweepDeletes (now - td) ((p, i) : FPath × FileInfo) = true := by
        have hu := hclean (p, i) hin hglob
        simp only [sweepDeletes, hfile, hold]
        simp only at hu
        simp [hu]
      exact List.mem_map.mpr ⟨(p, i), List.mem_filter.mpr ⟨hmatch, hdel⟩, rfl⟩
  · have hdir' : system.backup_location ∈ fs'.dirs := by rw [hfs']; exact hdir
    have hnodel : (fs'.files.filter (globSelects system.backup_location
        (sweepPattern system))).filter (sweepDeletes (now - td)) = [] := by
      rw [List.filter_eq_nil_iff]
      intro e hemem hedel
      have hm := List.mem_filter.mp hemem
      rw [hfs'] at hm
      have hm1 := List.mem_filter.mp hm.1
      have hpred := hm1.2
      simp only [decide_eq_true_eq] at hpred
      apply hpred
      exact List.mem_map.mpr ⟨e,
        List.mem_filter.mpr ⟨List.mem_filter.mpr ⟨hm1.1, hm.2⟩, hedel⟩, rfl⟩
    refine ⟨((fs'.files.filter (globSelects system.backup_location
      (sweepPattern system))).filter (sweepKeeps (now - td))).length, ?_⟩
    rw [cleanup_unfold system rc td now fs' hrc htd hdir', sweepGo_spec]
    have hF : fs'.files.filter (fun e => decide (e.1 ∉ delPaths (now - td)
        (fs'.files.filter (globSelects system.backup_location (sweepPattern system))))) =
        fs'.files := by
      simp [delPaths, hnodel]
    rw [hnodel, hF]
    simp

/-- Witness for C1 at a concrete target: sources 1 and 2 always fail,
source 3 succeeds — failover returns source 3's artifact path and attempts
exactly the three sources in order. -/
theorem C1_witness :
    (backup_db_with_failover ⟨"db", "/b", "odoo",
        [⟨"http://s1", "p"⟩, ⟨"http://s2", "p"⟩, ⟨"http://s3", "p"⟩], none⟩
      (fun s _ => if s.url == "http://s3" then AttemptSpec.wrote ⟨2048, 5, true, false⟩
        else AttemptSpec.httpError "down")
      (fun n => "t" ++ toString n) ⟨[], []⟩).result =
        some ("/b", "odoo_backup_db_s3_t3.zip") ∧
      (backup_db_with_failover ⟨"db", "/b", "odoo",
        [⟨"http://s1", "p"⟩, ⟨"http://s2", "p"⟩, ⟨"http://s3", "p"⟩], none⟩
      (fun s _ => if s.url == "http://s3" then AttemptSpec.wrote ⟨2048, 5, true, false⟩
        else AttemptSpec.httpError "down")
      (fun n => "t" ++ toString n) ⟨[], []⟩).attempted =
        ["http://s1", "http://s2", "http://s3"] :=
  (C1_failover_order_first_success ⟨"db", "/b", "odoo",
      [⟨"http://s1", "p"⟩, ⟨"http://s2", "p"⟩, ⟨"http://s3", "p"⟩], none⟩
    (fun s _ => if s.url == "http://s3" then AttemptSpec.wrote ⟨2048, 5, true, false⟩
      else AttemptSpec.httpError "down")
    (fun n => "t" ++ toString n) ⟨[], []⟩).1
    [⟨"http://s1", "p"⟩, ⟨"http://s2", "p"⟩] ⟨"http://s3", "p"⟩ [] rfl
    (by decide) (by decide)

/-- Witness for the amended C2: two targets, the first one's only source
always failing, the second's succeeding, with a valid retention config on
the second — no exception escapes and both targets are processed. -/
theorem C2_witness :
    (execute (fun system _ _ => if system.db_name == "db2"
        then AttemptSpec.wrote ⟨2048, 5, true, false⟩ else AttemptSpec.httpError "down")
      (fun _ _ => "t") 1728000
      [⟨"db1", "/b1", "odoo", [⟨"http://s1", "p"⟩], none⟩,
        ⟨"db2", "/b2", "odoo", [⟨"http://s2", "p"⟩], some ⟨7, "days"⟩⟩] ⟨[], []⟩).exc =
        none ∧
      (execute (fun system _ _ => if system.db_name == "db2"
          then AttemptSpec.wrote ⟨2048, 5, true, false⟩ else AttemptSpec.httpError "down")
        (fun _ _ => "t") 1728000
        [⟨"db1", "/b1", "odoo", [⟨"http://s1", "p"⟩], none⟩,
          ⟨"db2", "/b2", "odoo", [⟨"http://s2", "p"⟩], some ⟨7, "days"⟩⟩]
        ⟨[], []⟩).outcomes.map Prod.fst = ["db1", "db2"] :=
  C2_amended_no_abort
    (fun system _ _ => if system.db_name == "db2"
      then AttemptSpec.wrote ⟨2048, 5, true, false⟩ else AttemptSpec.httpError "down")
    (fun _ _ => "t") 1728000
    [⟨"db1", "/b1", "odoo", [⟨"http://s1", "p"⟩], none⟩,
      ⟨"db2", "/b2", "odoo", [⟨"http://s2", "p"⟩], some ⟨7, "days"⟩⟩] ⟨[], []⟩
    (by
      intro system hs rc hrc
      simp only [List.mem_cons, List.not_mem_nil, or_false] at hs
      rcases hs with h | h
      · subst h
        exact Option.noConfusion hrc
      · subst h
        injection hrc with h2
        subst h2
        exact ⟨604800, rfl⟩)

/-- Witness for C3: a source whose every attempt is interrupted mid-stream
(with deletable partial files) fails after retries and leaves no file at
the destination path. -/
theorem C3_witness :
    (download_backup "db" ⟨"u", "pw"⟩ ("/b", "f.zip")
        (fun _ => AttemptSpec.interrupted "reset" ⟨100, 5, true, false⟩)
        ⟨[], []⟩).fs.findFile ("/b", "f.zip") = none :=
  C3_no_partial_on_failure "db" ⟨"u", "pw"⟩ ("/b", "f.zip")
    (fun _ => AttemptSpec.interrupted "reset" ⟨100, 5, true, false⟩) ⟨[], []⟩
    ⟨"Source failed after retries (u): reset"⟩ (fun _ => rfl) rfl rfl

/-- Witness for the amended C4: with all three attempts timing out, the
downloader raises the aggregated failure carrying the source url and the
last error, after sleeping 2, 4 and 8 seconds over exactly 3 attempts. -/
theorem C4_witness :
    (download_backup "db" ⟨"u2", "pw"⟩ ("/c", "g.zip")
        (fun _ => AttemptSpec.httpError "timeout") ⟨[], []⟩).res =
        Except.error ⟨"Source failed after retries (u2): timeout"⟩ ∧
      (download_backup "db" ⟨"u2", "pw"⟩ ("/c", "g.zip")
        (fun _ => AttemptSpec.httpError "timeout") ⟨[], []⟩).sleeps = [2, 4, 8] ∧
      (download_backup "db" ⟨"u2", "pw"⟩ ("/c", "g.zip")
        (fun _ => AttemptSpec.httpError "timeout") ⟨[], []⟩).tried = 3 :=
  (C4_amended_retry_backoff "db" ⟨"u2", "pw"⟩ ("/c", "g.zip")
    (fun _ => AttemptSpec.httpError "timeout") ⟨[], []⟩).2.1 (fun _ _ _ => rfl)

/-- Witness for the amended C5: with the first source failing, the
coordinator's outcome over `[s1, s2]` is exactly the outcome over the
remaining `[s2]`, with `s1` recorded as attempted. -/
theorem C5_witness :
    ∃ e fs',
      (download_backup "db" ⟨"http://s1", "p"⟩
          ("/b", artifactFilename "odoo" "db" (sanitizeUrl "http://s1") "t1")
          ((fun (_ : SourceConfig) (_ : Nat) => AttemptSpec.httpError "down") ⟨"http://s1", "p"⟩)
          (FS.mkdir ⟨[], []⟩ "/b")).res = Except.error e ∧
        (failoverGo ⟨"db", "/b", "odoo", [⟨"http://s1", "p"⟩, ⟨"http://s2", "p"⟩], none⟩
            (fun _ _ => AttemptSpec.httpError "down") (fun n => "t" ++ toString n) 1
            [⟨"http://s1", "p"⟩, ⟨"http://s2", "p"⟩] ⟨[], []⟩).result =
          (failoverGo ⟨"db", "/b", "odoo", [⟨"http://s1", "p"⟩, ⟨"http://s2", "p"⟩], none⟩
            (fun _ _ => AttemptSpec.httpError "down") (fun n => "t" ++ toString n) 2
            [⟨"http://s2", "p"⟩] fs').result ∧
        (failoverGo ⟨"db", "/b", "odoo", [⟨"http://s1", "p"⟩, ⟨"http://s2", "p"⟩], none⟩
            (fun _ _ => AttemptSpec.httpError "down") (fun n => "t" ++ toString n) 1
            [⟨"http://s1", "p"⟩, ⟨"http://s2", "p"⟩] ⟨[], []⟩).attempted =
          "http://s1" ::
            (failoverGo ⟨"db", "/b", "odoo", [⟨"http://s1", "p"⟩, ⟨"http://s2", "p"⟩], none⟩
              (fun _ _ => AttemptSpec.httpError "down") (fun n => "t" ++ toString n) 2
              [⟨"http://s2", "p"⟩] fs').attempted :=
  C5_amended_coordinator_catches
    ⟨"db", "/b", "odoo", [⟨"http://s1", "p"⟩, ⟨"http://s2", "p"⟩], none⟩
    (fun _ _ => AttemptSpec.httpError "down") (fun n => "t" ++ toString n) 1
    ⟨"http://s1", "p"⟩ [⟨"http://s2", "p"⟩] ⟨[], []⟩ (by decide)

/-- Witness for the amended C6: in a directory holding one expired matching
artifact and one expired unrelated file, the sweep removes only the
matching one; applying the theorem at the removed entry shows it was glob-
selected. -/
theorem C6_witness :
    globSelects "/b" (sweepPattern ⟨"a", "/b", "odoo", [⟨"u", "p"⟩], some ⟨7, "days"⟩⟩)
      (("/b", "odoo_backup_a_h1_t1.zip"), ⟨2048, 0, true, false⟩) = true :=
  C6_amended_only_matching_deleted ⟨"a", "/b", "odoo", [⟨"u", "p"⟩], some ⟨7, "days"⟩⟩
    1728000
    ⟨["/b"], [(("/b", "odoo_backup_a_h1_t1.zip"), ⟨2048, 0, true, false⟩),
      (("/b", "unrelated.txt"), ⟨10, 0, true, false⟩)]⟩
    ⟨["/b"], [(("/b", "unrelated.txt"), ⟨10, 0, true, false⟩)]⟩ 1 0 rfl
    ("/b", "odoo_backup_a_h1_t1.zip") ⟨2048, 0, true, false⟩ (by decide) (by decide)

/-- Witness for C7 (the idempotence conjunct, at a concrete sweep that has
already deleted the expired file): re-running the sweep on the swept
directory deletes nothing and leaves it unchanged. -/
theorem C7_witness :
    ∃ k2, cleanup_old_backups ⟨"a", "/b", "odoo", [⟨"u", "p"⟩], some ⟨7, "days"⟩⟩ 1728000
        ⟨["/b"], [(("/b", "odoo_backup_a_h_t2.zip"), ⟨2048, 1700000, true, false⟩)]⟩ =
      Except.ok (⟨["/b"], [(("/b", "odoo_backup_a_h_t2.zip"), ⟨2048, 1700000, true, false⟩)]⟩,
        0, k2) :=
  (C7_sweep_strict_cutoff_idempotent ⟨"a", "/b", "odoo", [⟨"u", "p"⟩], some ⟨7, "days"⟩⟩
    ⟨7, "days"⟩ 604800 1728000
    ⟨["/b"], [(("/b", "odoo_backup_a_h_t1.zip"), ⟨2048, 0, true, false⟩),
      (("/b", "odoo_backup_a_h_t2.zip"), ⟨2048, 1700000, true, false⟩)]⟩
    ⟨["/b"], [(("/b", "odoo_backup_a_h_t2.zip"), ⟨2048, 1700000, true, false⟩)]⟩ 1 1
    rfl rfl (by decide) (by decide) (by decide) rfl).2.2

/-- Witness for C8: with the unit `days`, amount 2 yields a strictly
earlier cutoff than amount 1. -/
theorem C8_witness :
    ∃ c1 c2, toCutoffInstant ⟨1, "days"⟩ 0 = Except.ok c1 ∧
      toCutoffInstant ⟨2, "days"⟩ 0 = Except.ok c2 ∧ c2 < c1 :=
  C8_cutoff_monotone "days" 86400 1 2 0 rfl (by decide) (by decide)

/-- Witness for C9: a fully streamed 100-byte file under an HTTP-successful
response is rejected, deleted, and the loop proceeds to attempt 2 with the
too-small error as the last exception. -/
theorem C9_witness :
    download_backup "db" ⟨"u", "pw"⟩ ("/b", "f.zip")
        (fun _ => AttemptSpec.wrote ⟨100, 5, true, false⟩) ⟨[], []⟩ =
      downloadGo "u" ("/b", "f.zip") (fun _ => AttemptSpec.wrote ⟨100, 5, true, false⟩) 2 2
        (some ("Backup file too small: " ++ toString 100 ++ " bytes"))
        ((FS.setFile ⟨[], []⟩ ("/b", "f.zip") ⟨100, 5, true, false⟩).removeFile ("/b", "f.zip"))
        [2] :=
  (C9_size_validation "db" ⟨"u", "pw"⟩ ("/b", "f.zip")
    (fun _ => AttemptSpec.wrote ⟨100, 5, true, false⟩) ⟨[], []⟩ ⟨100, 5, true, false⟩ rfl).2
    (by decide) rfl

/-- Witness for C10: after a failover call over one always-failing source,
the storage directory exists. -/
theorem C10_witness :
    "/b" ∈ (backup_db_with_failover ⟨"db", "/b", "odoo", [⟨"u", "p"⟩], none⟩
      (fun _ _ => AttemptSpec.httpError "down") (fun _ => "t") ⟨[], []⟩).fs.dirs :=
  C10_storage_dir_created ⟨"db", "/b", "odoo", [⟨"u", "p"⟩], none⟩
    (fun _ _ => AttemptSpec.httpError "down") (fun _ => "t") ⟨[], []⟩ (by decide)
